import Mathlib

/-!
Verification of the OpenPhotoFrame backend (src/backend/program.py): a Flask
app that scans a configured directory for image files, serves a random
selection of them as URLs, serves the image bytes, and renders them
client-side in a mosaic layout.

The Python code is shallowly embedded: randomness (random.randint,
random.sample, Math.random) is supplied as explicit parameters, the
filesystem is observed through the walk primitive, and Python exceptions are
modelled with Except.
-/

namespace OpenPhotoFrame

/-- A file path relative to the image root, as its "/"-separated components. -/
abbrev Path := List String

/-- One entry of the recursive directory walk (os.walk): the directory's path
components relative to the walked root, and the regular file names it
directly contains. -/
abbrev WalkEntry := List String × List String

/-- The filesystem as observed through the walk primitive: a root path names
either a readable directory (its full recursive walk, in walk order, with
directory paths already relative to that root) or nothing (missing or
unreadable directory). -/
abbrev FileSystem := String → Option (List WalkEntry)

/-- Python-level exceptions that can escape a request handler (and so turn
into an HTTP 500 response in Flask). -/
inductive PyErr where
  | typeError : PyErr
deriving DecidableEq, Repr

/-- Decidable equality of Except values, to evaluate endpoint responses. -/
instance {ε α : Type} [DecidableEq ε] [DecidableEq α] :
    DecidableEq (Except ε α) := fun x y =>
  match x, y with
  | Except.ok a, Except.ok b =>
      if h : a = b then isTrue (by rw [h])
      else isFalse (fun hh => h (Except.ok.inj hh))
  | Except.error a, Except.error b =>
      if h : a = b then isTrue (by rw [h])
      else isFalse (fun hh => h (Except.error.inj hh))
  | Except.ok _, Except.error _ => isFalse (fun hh => Except.noConfusion hh)
  | Except.error _, Except.ok _ => isFalse (fun hh => Except.noConfusion hh)

/-- One character of str.lower, restricted to ASCII (file extensions are
ASCII). -/
def lowerChar (c : Char) : Char :=
  if 65 ≤ c.toNat ∧ c.toNat ≤ 90 then Char.ofNat (c.toNat + 32) else c

/-- str.lower, characterwise. -/
def strLower (s : String) : String :=
  ⟨s.data.map lowerChar⟩

/-- str.endswith: post is a suffix of s, checked on the character lists. -/
def strEndsWith (s post : String) : Bool :=
  decide (s.data.drop (s.data.length - post.data.length) = post.data)

/-- allowed_extensions of list_image_files. -/
def allowedExtensions : List String :=
  [".jpg", ".jpeg", ".png", ".gif", ".bmp", ".webp"]

/-- The filter of list_image_files: f.lower().endswith(allowed_extensions). -/
def isImage (f : String) : Bool :=
  allowedExtensions.any (fun ext => strEndsWith (strLower f) ext)

/-- os.walk(d) for a string d: a missing or unreadable root raises OSError
inside scandir, which os.walk swallows (onerror is None), yielding no
entries at all. -/
def osWalk (fs : FileSystem) (d : String) : List WalkEntry :=
  (fs d).getD []

/-- list_image_files(directory): walk the directory recursively and collect
the relative paths of the files whose lowercased name ends in an allowed
extension, in walk order. os.path.relpath(os.path.join(root, f), directory)
is the walk entry's relative directory extended with the file name.
A None directory makes os.walk raise TypeError (os.fspath(None)), which
list_image_files does not catch. -/
def list_image_files (fs : FileSystem) (directory : Option String) :
    Except PyErr (List Path) :=
  match directory with
  | none => Except.error PyErr.typeError
  | some d =>
      Except.ok ((osWalk fs d).flatMap
        (fun e => (e.2.filter isImage).map (fun f => e.1 ++ [f])))

/-- random.sample(population, k): k distinct positions chosen without
replacement. The random draws are supplied as a stream of numbers, each
reduced modulo the number of remaining candidates; the chosen element is
removed before the next draw. -/
def sample (picks : List Nat) (xs : List Path) (k : Nat) : List Path :=
  match k, xs with
  | 0, _ => []
  | _ + 1, [] => []
  | k + 1, x :: rest =>
      let ys := x :: rest
      let i := picks.headD 0 % ys.length
      ys.getD i [] :: sample picks.tail (ys.eraseIdx i) k

/-- The selection step of random_images: count models random.randint(1, 5);
if len(images) >= count then random.sample(images, count) else images. -/
def select_images (images : List Path) (count : Nat) (picks : List Nat) :
    List Path :=
  if count ≤ images.length then sample picks images count else images

/-- url_for('get_image', filename=..., _external=True), for a fixed host
(percent-escaping of special characters is not modelled). -/
def urlFor (p : Path) : String :=
  "http://localhost:5000/images/" ++ String.intercalate "/" p

/-- GET /api/random-images: scan, return an empty JSON array when nothing was
found, otherwise map the selection to absolute URLs. An uncaught Python
exception propagates (HTTP 500). -/
def random_images (fs : FileSystem) (imageDir : Option String) (count : Nat)
    (picks : List Nat) : Except PyErr (List String) :=
  match list_image_files fs imageDir with
  | Except.error e => Except.error e
  | Except.ok images =>
      if images.isEmpty then Except.ok []
      else Except.ok ((select_images images count picks).map urlFor)

/-- One step of posixpath.normpath on a relative path: "" and "."
components are dropped; ".." pops the previously kept component, except when
nothing is kept yet or the last kept component is already ".." (then the
".." is kept). -/
def normStep (acc : List String) (c : String) : List String :=
  if c = "" ∨ c = "." then acc
  else if c = ".." then
    if acc = [] ∨ acc.getLast? = some ".." then acc ++ [".."]
    else acc.dropLast
  else acc ++ [c]

/-- posixpath.normpath restricted to relative paths, working on the
"/"-separated components. -/
def normComps (comps : List String) : List String :=
  comps.foldl normStep []

/-- Whether the request path string began with "/": its first segment is
empty and at least one further segment follows. -/
def absSegs (comps : List String) : Bool :=
  match comps with
  | c :: _ :: _ => c == ""
  | _ => false

/-- Modelled from the spec: the containment check of the file-serving
primitive (werkzeug safe_join, delegated to by send_from_directory, which is
not part of this repository). It normalizes the relative path and rejects
absolute paths and any path that still begins with a ".." component after
normalization; an accepted path is returned as its normalized components.
(werkzeug checks absoluteness on the normalized string; normalization
preserves absoluteness, so checking the raw segments is equivalent.) -/
def safeJoin (filename : List String) : Option (List String) :=
  if absSegs filename then none
  else
    let n := normComps filename
    if n.head? = some ".." then none else some n

/-- os.path.isfile on root/comps: the file appears in the walk of the root,
i.e. some walk entry is the directory part of comps and directly contains
its final component. -/
def fileExists (fs : FileSystem) (d : String) (comps : List String) : Bool :=
  match comps.getLast? with
  | none => false
  | some f =>
      (osWalk fs d).any (fun e => decide (e.1 = comps.dropLast) && e.2.contains f)

/-- The response of the image-serving endpoint: the bytes of the file at the
given root-relative components (200), or 404. -/
inductive ImgResponse where
  | found : List String → ImgResponse
  | notFound : ImgResponse
deriving DecidableEq, Repr

/-- GET /images/(path:filename) is send_from_directory(IMAGE_DIR, filename):
404 when safe_join rejects the filename or the joined path is not an
existing regular file, otherwise the file's bytes. -/
def get_image (fs : FileSystem) (imageDir : String) (filename : List String) :
    ImgResponse :=
  match safeJoin filename with
  | none => ImgResponse.notFound
  | some comps =>
      if fileExists fs imageDir comps then ImgResponse.found comps
      else ImgResponse.notFound

/-- One rectangle of a layout template (CSS percentage strings). -/
structure Rect where
  left : String
  top : String
  width : String
  height : String
deriving DecidableEq, Repr

/-- layouts[1] of the frontend script. -/
def layouts1 : List (List Rect) :=
  [[⟨"0%", "0%", "100%", "100%"⟩]]

/-- layouts[2] of the frontend script. -/
def layouts2 : List (List Rect) :=
  [[⟨"0%", "0%", "50%", "100%"⟩, ⟨"50%", "0%", "50%", "100%"⟩],
   [⟨"0%", "0%", "100%", "50%"⟩, ⟨"0%", "50%", "100%", "50%"⟩]]

/-- layouts[3] of the frontend script. -/
def layouts3 : List (List Rect) :=
  [[⟨"0%", "0%", "60%", "100%"⟩, ⟨"60%", "0%", "40%", "50%"⟩,
    ⟨"60%", "50%", "40%", "50%"⟩],
   [⟨"0%", "0%", "100%", "60%"⟩, ⟨"0%", "60%", "50%", "40%"⟩,
    ⟨"50%", "60%", "50%", "40%"⟩]]

/-- layouts[4] of the frontend script. -/
def layouts4 : List (List Rect) :=
  [[⟨"0%", "0%", "50%", "50%"⟩, ⟨"50%", "0%", "50%", "50%"⟩,
    ⟨"0%", "50%", "50%", "50%"⟩, ⟨"50%", "50%", "50%", "50%"⟩]]

/-- layouts[5] of the frontend script. -/
def layouts5 : List (List Rect) :=
  [[⟨"0%", "0%", "50%", "50%"⟩, ⟨"50%", "0%", "50%", "50%"⟩,
    ⟨"0%", "50%", "33.33%", "50%"⟩, ⟨"33.33%", "50%", "33.33%", "50%"⟩,
    ⟨"66.66%", "50%", "33.33%", "50%"⟩],
   [⟨"0%", "0%", "100%", "60%"⟩, ⟨"0%", "60%", "25%", "40%"⟩,
    ⟨"25%", "60%", "25%", "40%"⟩, ⟨"50%", "60%", "25%", "40%"⟩,
    ⟨"75%", "60%", "25%", "40%"⟩]]

/-- The static layout table, keyed by image count. -/
def layouts (n : Nat) : Option (List (List Rect)) :=
  match n with
  | 1 => some layouts1
  | 2 => some layouts2
  | 3 => some layouts3
  | 4 => some layouts4
  | 5 => some layouts5
  | _ => none

/-- const templates = layouts[count] || layouts[1];
const layout = templates[Math.floor(Math.random() * templates.length)];
In JavaScript an array (even an empty one) is truthy, so the fallback fires
exactly when the table has no entry for count. The Math.random draw is
supplied as the parameter r, reduced modulo the number of candidates. -/
def chooseLayout (count : Nat) (r : Nat) : List Rect :=
  let templates := (layouts count).getD layouts1
  templates.getD (r % templates.length) []

/-- The content of the photoContainer element. -/
inductive Container where
  | initialState : Container
  | message : String → Container
  | mosaic : List String → List Rect → Container
deriving DecidableEq, Repr

/-- Whether the container currently shows a textual message. -/
def showsMessage : Container → Bool
  | Container.message _ => true
  | _ => false

/-- One run of fetchAndDisplayImages, as a transition on the container
content. The fetch/parse outcome is the parameter result; on failure the
catch block only logs to the console, so the container keeps its previous
content. On success with zero URLs a placeholder message is shown; otherwise
the container is replaced by the images positioned per a randomly chosen
layout for the count. -/
def renderStep (prev : Container) (result : Except Unit (List String))
    (r : Nat) : Container :=
  match result with
  | Except.error _ => prev
  | Except.ok imageUrls =>
      if imageUrls.length = 0 then Container.message "No images found"
      else Container.mosaic imageUrls (chooseLayout imageUrls.length r)

/-- The setInterval loop: container state after n timer cycles, each cycle
running fetchAndDisplayImages once with that cycle's fetch outcome and
random draw. -/
def runCycles (results : Nat → Except Unit (List String)) (rs : Nat → Nat) :
    Nat → Container
  | 0 => Container.initialState
  | n + 1 => renderStep (runCycles results rs n) (results n) (rs n)

/-- Stated from the spec, for comparison with isImage: the file's extension,
compared case-insensitively, is one of jpg, jpeg, png, gif, bmp, webp. -/
def specAllowedExt (f : String) : Bool :=
  ["jpg", "jpeg", "png", "gif", "bmp", "webp"].any
    (fun e => strEndsWith (strLower f) ("." ++ e))

/-- A string that an actual file or directory name can be: nonempty, not the
special entries "." or "..", and free of the path separator. -/
def validName (c : String) : Bool :=
  c != "" && c != "." && c != ".." && !(decide ('/' ∈ c.data))

/-- Every directory component and file name produced by walking root d is an
actual name. True of every real filesystem walk. -/
def ValidFS (fs : FileSystem) (d : String) : Prop :=
  ∀ e ∈ osWalk fs d,
    (∀ c ∈ e.1, validName c = true) ∧ (∀ f ∈ e.2, validName f = true)

/-- A root directory holding exactly three .png files and nothing else, for
the end-to-end property and for witnesses. -/
def fs3 : FileSystem := fun d =>
  if d = "root" then some [([], ["a.png", "b.png", "c.png"])] else none

/-- A filesystem on which every root is missing or unreadable. -/
def fsNone : FileSystem := fun _ => none

/-- The three relative paths found by scanning the fs3 root. -/
def imgs3 : List Path := [["a.png"], ["b.png"], ["c.png"]]

/-- A fetch outcome stream on which every cycle's fetch or parse fails. -/
def failingFetches : Nat → Except Unit (List String) := fun _ => Except.error ()

/-- A degenerate stream of client-side random draws. -/
def zeroDraws : Nat → Nat := fun _ => 0

/-- An accumulator of normStep in which any ".." components form a leading
block and every later component is a plain name part. -/
def CleanAcc (acc : List String) : Prop :=
  ∃ k rest, acc = List.replicate k ".." ++ rest ∧
    ∀ c ∈ rest, c ≠ "" ∧ c ≠ "." ∧ c ≠ ".."

/-- A root-relative path every component of which is a plain name: such a
path resolves to a location inside the root directory (no component is
empty, a self reference, or a parent reference that could climb out). -/
def InsideRoot (comps : List String) : Prop :=
  ∀ c ∈ comps, c ≠ "" ∧ c ≠ "." ∧ c ≠ ".."

/-! ## Helper lemmas -/

theorem sample_length (picks : List Nat) (xs : List Path) (k : Nat)
    (h : k ≤ xs.length) : (sample picks xs k).length = k := by
  induction k generalizing picks xs with
  | zero => cases xs <;> rfl
  | succ k ih =>
    cases xs with
    | nil => simp at h
    | cons x rest =>
      have hi : picks.headD 0 % (rest.length + 1) < (x :: rest).length :=
        Nat.mod_lt _ (Nat.succ_pos _)
      have he : ((x :: rest).eraseIdx
          (picks.headD 0 % (rest.length + 1))).length = rest.length := by
        rw [List.length_eraseIdx_of_lt hi]
        simp
      simp only [List.length_cons] at h
      simp only [sample, List.length_cons]
      rw [ih picks.tail _ (by rw [he]; exact Nat.le_of_succ_le_succ h)]

theorem sample_subset (picks : List Nat) (xs : List Path) (k : Nat) :
    ∀ p ∈ sample picks xs k, p ∈ xs := by
  induction k generalizing picks xs with
  | zero => intro p hp; cases xs <;> simp [sample] at hp
  | succ k ih =>
    intro p hp
    cases xs with
    | nil => simp [sample] at hp
    | cons x rest =>
      have hi : picks.headD 0 % (x :: rest).length < (x :: rest).length :=
        Nat.mod_lt _ (by simp)
      simp only [sample, List.mem_cons] at hp
      rcases hp with hp | hp
      · rw [hp, List.getD_eq_getElem _ _ hi]
        exact List.getElem_mem hi
      · exact List.eraseIdx_subset _ _ (ih picks.tail _ p hp)

theorem sample_nodup (picks : List Nat) (xs : List Path) (k : Nat)
    (h : xs.Nodup) : (sample picks xs k).Nodup := by
  induction k generalizing picks xs with
  | zero => cases xs <;> simp [sample]
  | succ k ih =>
    cases xs with
    | nil => simp [sample]
    | cons x rest =>
      have hi : picks.headD 0 % (x :: rest).length < (x :: rest).length :=
        Nat.mod_lt _ (by simp)
      simp only [sample]
      refine List.nodup_cons.mpr ⟨?_, ih picks.tail _ (h.eraseIdx _)⟩
      intro hmem
      have hsub := sample_subset picks.tail _ k _ hmem
      rw [List.getD_eq_getElem _ _ hi] at hsub
      rw [List.mem_eraseIdx_iff_getElem] at hsub
      obtain ⟨j, hj, hjne, hje⟩ := hsub
      exact hjne (h.getElem_inj_iff.mp hje)

theorem select_images_spec (images : List Path) (count : Nat)
    (picks : List Nat) (hnd : images.Nodup) :
    (select_images images count picks).length = min count images.length ∧
    (select_images images count picks).Nodup ∧
    (∀ p ∈ select_images images count picks, p ∈ images) ∧
    (images.length < count → select_images images count picks = images) := by
  unfold select_images
  by_cases hc : count ≤ images.length
  · rw [if_pos hc]
    exact ⟨by rw [sample_length _ _ _ hc]; omega,
      sample_nodup _ _ _ hnd, sample_subset _ _ _,
      fun hlt => absurd hc (by omega)⟩
  · rw [if_neg hc]
    exact ⟨by omega, hnd, fun p hp => hp, fun _ => rfl⟩

theorem getD_mod_mem {α : Type} (l : List α) (d : α) (r : Nat) (h : l ≠ []) :
    l.getD (r % l.length) d ∈ l := by
  have hl : 0 < l.length := List.length_pos.mpr h
  have hi : r % l.length < l.length := Nat.mod_lt _ hl
  rw [List.getD_eq_getElem _ _ hi]
  exact List.getElem_mem hi

theorem isImage_eq_specAllowedExt (f : String) :
    isImage f = specAllowedExt f := by
  have h1 : ("." ++ "jpg" : String) = ".jpg" := by decide
  have h2 : ("." ++ "jpeg" : String) = ".jpeg" := by decide
  have h3 : ("." ++ "png" : String) = ".png" := by decide
  have h4 : ("." ++ "gif" : String) = ".gif" := by decide
  have h5 : ("." ++ "bmp" : String) = ".bmp" := by decide
  have h6 : ("." ++ "webp" : String) = ".webp" := by decide
  simp [isImage, specAllowedExt, allowedExtensions, h1, h2, h3, h4, h5, h6]

theorem normStep_clean (acc : List String) (c : String) (h : CleanAcc acc) :
    CleanAcc (normStep acc c) := by
  obtain ⟨k, rest, rfl, hrest⟩ := h
  unfold normStep
  by_cases h0 : c = "" ∨ c = "."
  · rw [if_pos h0]
    exact ⟨k, rest, rfl, hrest⟩
  rw [if_neg h0]
  push_neg at h0
  by_cases h2 : c = ".."
  · rw [if_pos h2]
    by_cases h3 : List.replicate k ".." ++ rest = [] ∨
        (List.replicate k ".." ++ rest).getLast? = some ".."
    · rw [if_pos h3]
      have hrnil : rest = [] := by
        rcases h3 with h3 | h3
        · exact (List.append_eq_nil.mp h3).2
        · by_contra hne
          rw [List.getLast?_append, List.getLast?_eq_getLast rest hne,
            Option.or_some] at h3
          exact (hrest _ (List.getLast_mem hne)).2.2 (Option.some.inj h3)
      subst hrnil
      refine ⟨k + 1, [], ?_, by simp⟩
      simp [List.replicate_succ' k]
    · rw [if_neg h3]
      push_neg at h3
      have hrne : rest ≠ [] := by
        intro hr
        subst hr
        cases k with
        | zero => exact h3.1 (by simp)
        | succ k =>
            apply h3.2
            simp [List.replicate_succ' k]
      refine ⟨k, rest.dropLast, ?_, fun x hx =>
        hrest x (List.dropLast_subset _ hx)⟩
      rw [List.dropLast_append_of_ne_nil _ hrne]
  · rw [if_neg h2]
    exact ⟨k, rest ++ [c], by rw [List.append_assoc],
      fun x hx => by
        rcases List.mem_append.mp hx with hx | hx
        · exact hrest x hx
        · rcases List.mem_singleton.mp hx with rfl
          exact ⟨h0.1, h0.2, h2⟩⟩

theorem foldl_normStep_clean (cs : List String) (acc : List String)
    (h : CleanAcc acc) : CleanAcc (cs.foldl normStep acc) := by
  induction cs generalizing acc with
  | nil => exact h
  | cons c cs ih => exact ih _ (normStep_clean _ _ h)

theorem normComps_clean (cs : List String) : CleanAcc (normComps cs) :=
  foldl_normStep_clean cs [] ⟨0, [], rfl, by simp⟩

theorem safeJoin_inside (filename : List String) (comps : List String)
    (h : safeJoin filename = some comps) : InsideRoot comps := by
  unfold safeJoin at h
  by_cases ha : absSegs filename = true
  · rw [if_pos ha] at h
    exact absurd h (by simp)
  · rw [if_neg ha] at h
    by_cases hh : (normComps filename).head? = some ".."
    · rw [if_pos hh] at h
      exact absurd h (by simp)
    · rw [if_neg hh] at h
      obtain rfl := Option.some.inj h
      obtain ⟨k, rest, heq, hrest⟩ := normComps_clean filename
      cases k with
      | zero => intro c hc; exact hrest c (by simpa [heq] using hc)
      | succ k =>
          exfalso
          apply hh
          rw [heq, List.replicate_succ]
          rfl

theorem foldl_normStep_append (cs : List String) (acc : List String)
    (h : ∀ c ∈ cs, c ≠ "" ∧ c ≠ "." ∧ c ≠ "..") :
    cs.foldl normStep acc = acc ++ cs := by
  induction cs generalizing acc with
  | nil => simp
  | cons c cs ih =>
      have hc := h c (by simp)
      have hstep : normStep acc c = acc ++ [c] := by
        unfold normStep
        rw [if_neg (by tauto), if_neg hc.2.2]
      rw [List.foldl_cons, hstep, ih _ (fun x hx => h x (by simp [hx]))]
      simp

theorem validName_plain (c : String) (h : validName c = true) :
    c ≠ "" ∧ c ≠ "." ∧ c ≠ ".." := by
  simp only [validName, Bool.and_eq_true, bne_iff_ne, ne_eq] at h
  exact ⟨h.1.1.1, h.1.1.2, h.1.2⟩

theorem absSegs_false_of_ne_empty (xs : List String)
    (h : ∀ c ∈ xs, c ≠ "") : absSegs xs = false := by
  match xs with
  | [] => rfl
  | [c] => rfl
  | c :: c2 :: t =>
      simp only [absSegs]
      exact beq_eq_false_iff_ne.mpr (h c (by simp))

/-! ## The claims -/

/-- C1: for a non-empty scanned list of K distinct images and any drawn
count in [1,5], the picker's selection has size min(count, K); when K is at
least count it is count distinct entries of the list (no duplicates), and
when K is smaller it is exactly the scanned list, each entry once. -/
theorem C1_picker_selection (images : List Path) (count : Nat)
    (picks : List Nat) (hne : images ≠ []) (hnd : images.Nodup)
    (h1 : 1 ≤ count) (h5 : count ≤ 5) :
    (select_images images count picks).length = min count images.length ∧
    (select_images images count picks).Nodup ∧
    (∀ p ∈ select_images images count picks, p ∈ images) ∧
    (images.length < count → select_images images count picks = images) :=
  select_images_spec images count picks hnd

/-- Witness for C1 at a concrete list of three images and count 2. -/
theorem C1_picker_selection_witness :
    (select_images imgs3 2 [0, 0]).length = min 2 imgs3.length ∧
    (select_images imgs3 2 [0, 0]).Nodup ∧
    (∀ p ∈ select_images imgs3 2 [0, 0], p ∈ imgs3) ∧
    (imgs3.length < 2 → select_images imgs3 2 [0, 0] = imgs3) :=
  C1_picker_selection imgs3 2 [0, 0] (by decide) (by decide) (by decide)
    (by decide)

/-- C3: scanning a root returns exactly the files found under it whose
extension, compared case-insensitively, is one of jpg, jpeg, png, gif, bmp,
webp, each as its path relative to the root, and excludes every other
file. -/
theorem C3_scan_exactly_allowed (fs : FileSystem) (d : String) (p : Path) :
    ∃ l, list_image_files fs (some d) = Except.ok l ∧
      (p ∈ l ↔ ∃ e ∈ osWalk fs d, ∃ f ∈ e.2,
        specAllowedExt f = true ∧ p = e.1 ++ [f]) := by
  refine ⟨_, rfl, ?_⟩
  simp only [List.mem_flatMap, List.mem_map, List.mem_filter]
  constructor
  · rintro ⟨e, he, f, ⟨hf, hImg⟩, rfl⟩
    exact ⟨e, he, f, hf, by rw [← isImage_eq_specAllowedExt]; exact hImg, rfl⟩
  · rintro ⟨e, he, f, hf, hspec, rfl⟩
    exact ⟨e, he, f, ⟨hf, by rw [isImage_eq_specAllowedExt]; exact hspec⟩, rfl⟩

/-- C4: when the scan finds zero images the picker's selection is empty and
the /api/random-images endpoint answers with an empty JSON array, not an
HTTP error. -/
theorem C4_zero_images_empty_response (fs : FileSystem) (d : String)
    (count : Nat) (picks : List Nat)
    (h : list_image_files fs (some d) = Except.ok []) :
    select_images [] count picks = [] ∧
    random_images fs (some d) count picks = Except.ok [] := by
  constructor
  · unfold select_images
    cases count with
    | zero => rfl
    | succ n => rw [if_neg (by simp)]
  · unfold random_images
    rw [h]
    rfl

/-- Witness for C4 on a filesystem whose root is empty of images. -/
theorem C4_zero_images_empty_response_witness :
    select_images [] 3 [0] = [] ∧
    random_images fsNone (some "pics") 3 [0] = Except.ok [] :=
  C4_zero_images_empty_response fsNone "pics" 3 [0] (by decide)

/-- C5 (code bug): with the IMAGE_DIR environment variable absent the
handler calls os.walk(None), which raises TypeError (os.fspath(None)), so
the request produces an HTTP 500 — not the empty-list response the claim
describes. This theorem evaluates the embedded code at the failing input. -/
theorem C5_missing_env_raises (fs : FileSystem) (count : Nat)
    (picks : List Nat) :
    random_images fs none count picks = Except.error PyErr.typeError := rfl

/-- C6: a missing or unreadable root directory makes the scanner return an
empty list; no exception reaches the caller. -/
theorem C6_missing_root_silent (fs : FileSystem) (d : String)
    (h : fs d = none) : list_image_files fs (some d) = Except.ok [] := by
  simp [list_image_files, osWalk, h]

/-- Witness for C6 on the everywhere-missing filesystem. -/
theorem C6_missing_root_silent_witness :
    list_image_files fsNone (some "pics") = Except.ok [] :=
  C6_missing_root_silent fsNone "pics" rfl

/-- C7: for every selection size N of at least 1, the renderer finds a
layout: when the table has an entry for N the chosen layout is one of that
entry's candidates, and when it has none the renderer falls back to the
single full-screen layout of the N = 1 entry. -/
theorem C7_layout_defined (n r : Nat) (h : 1 ≤ n) :
    (∃ ts, layouts n = some ts ∧ chooseLayout n r ∈ ts) ∨
    (layouts n = none ∧ chooseLayout n r ∈ layouts1) := by
  match n, h with
  | 1, _ => exact Or.inl ⟨layouts1, rfl, getD_mod_mem _ _ _ (by decide)⟩
  | 2, _ => exact Or.inl ⟨layouts2, rfl, getD_mod_mem _ _ _ (by decide)⟩
  | 3, _ => exact Or.inl ⟨layouts3, rfl, getD_mod_mem _ _ _ (by decide)⟩
  | 4, _ => exact Or.inl ⟨layouts4, rfl, getD_mod_mem _ _ _ (by decide)⟩
  | 5, _ => exact Or.inl ⟨layouts5, rfl, getD_mod_mem _ _ _ (by decide)⟩
  | m + 6, _ =>
      refine Or.inr ⟨rfl, ?_⟩
      exact getD_mod_mem layouts1 [] r (by decide)

/-- Witness for C7 at N = 3 with the second candidate drawn. -/
theorem C7_layout_defined_witness :
    (∃ ts, layouts 3 = some ts ∧ chooseLayout 3 1 ∈ ts) ∨
    (layouts 3 = none ∧ chooseLayout 3 1 ∈ layouts1) :=
  C7_layout_defined 3 1 (by decide)

/-- C8 counterexample: a fetch failure does not leave an empty or error
message in the display container — the container keeps showing its previous
mosaic unchanged. -/
theorem C8_failure_shows_no_message :
    renderStep (Container.mosaic ["http://localhost:5000/images/a.png"]
        (chooseLayout 1 0)) (Except.error ()) 0 =
      Container.mosaic ["http://localhost:5000/images/a.png"]
        (chooseLayout 1 0) ∧
    showsMessage (renderStep
        (Container.mosaic ["http://localhost:5000/images/a.png"]
          (chooseLayout 1 0)) (Except.error ()) 0) = false :=
  ⟨rfl, rfl⟩

/-- C8 as amended: on a client-side fetch or parse failure the renderer
returns to idle with the display container unchanged (the previous content
is retained; the error goes to the console, not the container), and the
recurring timer loop continues with the next cycle. -/
theorem C8_failure_keeps_container (results : Nat → Except Unit (List String))
    (rs : Nat → Nat) (e : Unit) (i : Nat) (h : results i = Except.error e) :
    runCycles results rs (i + 1) = runCycles results rs i := by
  simp [runCycles, h, renderStep]

/-- Witness for the amended C8 on an always-failing fetch stream. -/
theorem C8_failure_keeps_container_witness :
    runCycles failingFetches zeroDraws 1 = runCycles failingFetches zeroDraws 0 :=
  C8_failure_keeps_container failingFetches zeroDraws () 0 rfl

/-- C2: the image-serving endpoint never returns the content of a file
outside the configured root — every served path lies inside the root, and
every other request (in particular a ../../etc/passwd-style traversal) gets
a 404. -/
theorem C2_no_escape (fs : FileSystem) (imageDir : String)
    (filename : List String) :
    ((∃ comps, get_image fs imageDir filename = ImgResponse.found comps ∧
        InsideRoot comps) ∨
      get_image fs imageDir filename = ImgResponse.notFound) ∧
    get_image fs imageDir ["..", "..", "etc", "passwd"] =
      ImgResponse.notFound := by
  refine ⟨?_, rfl⟩
  unfold get_image
  cases hsj : safeJoin filename with
  | none => exact Or.inr rfl
  | some comps =>
      by_cases hex : fileExists fs imageDir comps = true
      · exact Or.inl ⟨comps, by simp [hex], safeJoin_inside _ _ hsj⟩
      · exact Or.inr (by simp [hex])

/-- C9: with a root holding exactly three .png files, every request to
/api/random-images answers with between 1 and 3 URLs, each one of the three
known image URLs, with no duplicate URL in a single response. -/
theorem C9_three_pngs_end_to_end (count : Nat) (picks : List Nat)
    (h1 : 1 ≤ count) (h5 : count ≤ 5) :
    ∃ urls, random_images fs3 (some "root") count picks = Except.ok urls ∧
      1 ≤ urls.length ∧ urls.length ≤ 3 ∧
      (∀ u ∈ urls, u ∈ imgs3.map urlFor) ∧ urls.Nodup := by
  have hscan : list_image_files fs3 (some "root") = Except.ok imgs3 := by
    decide
  have hnd : imgs3.Nodup := by decide
  obtain ⟨hlen, hsnd, hsub, -⟩ := select_images_spec imgs3 count picks hnd
  have hroute : random_images fs3 (some "root") count picks =
      Except.ok ((select_images imgs3 count picks).map urlFor) := by
    unfold random_images
    rw [hscan]
    rfl
  have h3 : imgs3.length = 3 := rfl
  refine ⟨_, hroute, ?_, ?_, ?_, ?_⟩
  · rw [List.length_map, hlen, h3]
    omega
  · rw [List.length_map, hlen, h3]
    omega
  · intro u hu
    obtain ⟨p, hp, rfl⟩ := List.mem_map.mp hu
    exact List.mem_map.mpr ⟨p, hsub p hp, rfl⟩
  · refine List.Nodup.map_on ?_ hsnd
    intro x hx y hy hxy
    have hinj : ∀ x ∈ imgs3, ∀ y ∈ imgs3, urlFor x = urlFor y → x = y := by
      decide
    exact hinj x (hsub x hx) y (hsub y hy) hxy

/-- Witness for C9 at count 2. -/
theorem C9_three_pngs_end_to_end_witness :
    ∃ urls, random_images fs3 (some "root") 2 [0, 0] = Except.ok urls ∧
      1 ≤ urls.length ∧ urls.length ≤ 3 ∧
      (∀ u ∈ urls, u ∈ imgs3.map urlFor) ∧ urls.Nodup :=
  C9_three_pngs_end_to_end 2 [0, 0] (by decide) (by decide)

/-- C10: every relative path the scanner returns round-trips through the
serving endpoint — it contains no component that escapes the root, it names
an existing file inside the root, and requesting it from /images serves that
file rather than a 404. -/
theorem C10_scan_roundtrip (fs : FileSystem) (d : String) (l : List Path)
    (hv : ValidFS fs d) (hscan : list_image_files fs (some d) = Except.ok l)
    (p : Path) (hp : p ∈ l) :
    InsideRoot p ∧ get_image fs d p = ImgResponse.found p := by
  have hl : l = (osWalk fs d).flatMap
      (fun e => (e.2.filter isImage).map (fun f => e.1 ++ [f])) :=
    (Except.ok.inj hscan).symm
  subst hl
  simp only [List.mem_flatMap, List.mem_map, List.mem_filter] at hp
  obtain ⟨e, he, f, ⟨hf, hImg⟩, rfl⟩ := hp
  have hve := hv e he
  have hplain : ∀ c ∈ e.1 ++ [f], c ≠ "" ∧ c ≠ "." ∧ c ≠ ".." := by
    intro c hc
    rcases List.mem_append.mp hc with hc | hc
    · exact validName_plain c (hve.1 c hc)
    · rcases List.mem_singleton.mp hc with rfl
      exact validName_plain c (hve.2 c hf)
  refine ⟨hplain, ?_⟩
  have habs : absSegs (e.1 ++ [f]) = false :=
    absSegs_false_of_ne_empty _ (fun c hc => (hplain c hc).1)
  have hnorm : normComps (e.1 ++ [f]) = e.1 ++ [f] := by
    unfold normComps
    rw [foldl_normStep_append _ [] hplain]
    simp
  have hsj : safeJoin (e.1 ++ [f]) = some (e.1 ++ [f]) := by
    unfold safeJoin
    rw [habs, hnorm]
    simp
    refine ⟨fun hc => ?_, fun _ => (hplain f (by simp)).2.2⟩
    exact (hplain ".." (List.mem_append_left _
      (List.mem_of_mem_head? (Option.mem_def.mpr hc)))).2.2 rfl
  have hex : fileExists fs d (e.1 ++ [f]) = true := by
    unfold fileExists
    rw [List.getLast?_concat]
    apply List.any_eq_true.mpr
    refine ⟨e, he, ?_⟩
    have hcont : e.2.contains f = true :=
      List.contains_iff_exists_mem_beq.mpr ⟨f, hf, by simp⟩
    simp [List.dropLast_concat, hcont, hf]
  unfold get_image
  rw [hsj]
  simp [hex]

/-- Witness for C10 on the three-png root at the path a.png. -/
theorem C10_scan_roundtrip_witness :
    InsideRoot ["a.png"] ∧
    get_image fs3 "root" ["a.png"] = ImgResponse.found ["a.png"] :=
  C10_scan_roundtrip fs3 "root" imgs3 (by unfold ValidFS; decide) (by decide)
    ["a.png"] (by decide)
